import Mathlib

/-!
Verification development for the dynamic JavaScript helper bridge of the
JSON-to-Markdown converter (source file `src/js_helpers.rs`).

The bridge embeds a QuickJS interpreter (via the `rquickjs` crate), converts
`serde_json::Value` data into interpreter values (`serde_value_to_js`),
discovers user-defined global functions (`load_js_helpers` together with
`is_builtin_js_function`), and wraps each discovered function as a
Handlebars helper (the closure built in `register_with_handlebars`).

The embedding below follows the Rust source.  Interpreter-internal behaviour
(the `rquickjs` engine) is modelled abstractly:

* every fallible engine primitive used by `serde_value_to_js`
  (`Null.into_js`, `bool::into_js`, `i64::into_js`, `f64::into_js`,
  `str::into_js`, `Array::new`, `Object::new`) is mediated by a `JsCtx`
  oracle telling which primitive operations fail and with which error text,
  mirroring the `Result` type of each call site;
* JavaScript function values are identified by an id string; the behaviour
  of calling one (which the engine, not this repository, determines) is a
  field of the `Session` structure, as is the error text the engine attaches
  to a failed property lookup;
* `f64` values are symbolic: the claims under study only inspect which
  conversion branch produced a float, never float arithmetic, so an `F64`
  just records where it came from (`u64` cast, `i64` cast, or a literal).
-/

namespace JsonToMd

/-- Symbolic `f64`: the claims only need to know a float's provenance
(`n as f64` from a `u64`, `i as f64` from an `i64`, or an original float
literal identified by its bit pattern), never IEEE arithmetic. -/
inductive F64 where
  | ofU64 (n : Nat)
  | ofI64 (i : Int)
  | lit (bits : Nat)
deriving DecidableEq, Repr

/-- Internal representation of `serde_json::Number` (the `N` enum of
`serde_json`): an unsigned 64-bit integer, a strictly negative signed
64-bit integer, or a finite double. -/
inductive N where
  | posInt (n : Nat)
  | negInt (i : Int)
  | float (f : F64)
deriving DecidableEq, Repr

/-- Largest `i64`, `2 ^ 63 - 1`. -/
def i64Max : Nat := 9223372036854775807

/-- Smallest `i64` as an integer, `-(2 ^ 63)`. -/
def i64Min : Int := -9223372036854775808

/-- Exclusive upper bound of `u64`, `2 ^ 64`. -/
def u64Bound : Nat := 18446744073709551616

/-- Model of `serde_json::Number::as_i64`: a `PosInt` fits iff it is at most
`i64::MAX`, a `NegInt` always fits, a `Float` never does. -/
def N.as_i64 : N → Option Int
  | .posInt n => if n ≤ i64Max then some (n : Int) else none
  | .negInt i => some i
  | .float _ => none

/-- Model of `serde_json::Number::as_f64`: integer variants are cast with
`as f64` (symbolically recorded), a float is returned as is.  It never
returns `None`. -/
def N.as_f64 : N → Option F64
  | .posInt n => some (.ofU64 n)
  | .negInt i => some (.ofI64 i)
  | .float f => some f

/-- Model of `serde_json::Value` (the Generic Value of the spec).  Objects
are kept as an ordered association list; `serde_json`'s map type has unique
keys. -/
inductive Value where
  | null
  | bool (b : Bool)
  | number (n : N)
  | string (s : String)
  | array (xs : List Value)
  | object (entries : List (String × Value))
deriving Repr

/-- Model of an interpreter (`rquickjs`) value as observed through the
bridge.  `undefined` is the hole left in a JS array at an index that was
never assigned; `function id` is a JS function value identified by `id`
(its behaviour lives in the `Session`, see below). -/
inductive JsValue where
  | null
  | undefined
  | bool (b : Bool)
  | int (i : Int)
  | float (f : F64)
  | string (s : String)
  | array (xs : List JsValue)
  | object (entries : List (String × JsValue))
  | function (id : String)
deriving Repr

/-- Model of `rquickjs::Value::is_function`. -/
def JsValue.is_function : JsValue → Bool
  | .function _ => true
  | _ => false

/-- Model of `rquickjs::Value::as_string` (no coercion: only a JS string
answers `some`). -/
def JsValue.as_string : JsValue → Option String
  | .string s => some s
  | _ => none

/-- Fallible engine primitives invoked by `serde_value_to_js` and by the
argument-packing fallback of the helper closure, one per call site kind. -/
inductive JsOp where
  | mkNull
  | mkBool (b : Bool)
  | mkInt (i : Int)
  | mkFloat (f : F64)
  | mkString (s : String)
  | mkArray
  | mkObject
deriving DecidableEq, Repr

/-- Oracle for the engine's fallible primitives: `fails op = some e` means
the engine reports error text `e` for that operation (`Err` at the Rust call
site), `none` means the operation succeeds. -/
structure JsCtx where
  fails : JsOp → Option String

/-- Engine context in which every primitive succeeds (the ordinary case: in
`rquickjs` these conversions fail only on engine-resource exhaustion). -/
def ctxOk : JsCtx := ⟨fun _ => none⟩

/-- Model of `rquickjs::Array::set idx v` on the growable JS array `xs`:
assigning index `i` past the end pads the skipped indices with holes
(`undefined`) and extends the length to `i + 1`. -/
def jsArraySet (xs : List JsValue) (i : Nat) (v : JsValue) : List JsValue :=
  match xs, i with
  | [], 0 => [v]
  | [], i + 1 => .undefined :: jsArraySet [] i v
  | _ :: rest, 0 => v :: rest
  | x :: rest, i + 1 => x :: jsArraySet rest i v

mutual

/-- Model of `serde_value_to_js` (src/js_helpers.rs lines 311-346), the
host-to-native conversion.  Each `into_js` / constructor call consults the
`JsCtx` oracle exactly where the Rust code can receive an `Err`. -/
def serde_value_to_js (ctx : JsCtx) : Value → Except String JsValue
  | .null =>
    match ctx.fails .mkNull with
    | some e => .error e
    | none => .ok .null
  | .bool b =>
    match ctx.fails (.mkBool b) with
    | some e => .error e
    | none => .ok (.bool b)
  | .number n =>
    match n.as_i64 with
    | some i =>
      match ctx.fails (.mkInt i) with
      | some e => .error e
      | none => .ok (.int i)
    | none =>
      match n.as_f64 with
      | some f =>
        match ctx.fails (.mkFloat f) with
        | some e => .error e
        | none => .ok (.float f)
      | none =>
        match ctx.fails .mkNull with
        | some e => .error e
        | none => .ok .null
  | .string s =>
    match ctx.fails (.mkString s) with
    | some e => .error e
    | none => .ok (.string s)
  | .array arr =>
    match ctx.fails .mkArray with
    | some e => .error e
    | none => .ok (.array (serdeArrayElems ctx arr 0 []))
  | .object obj =>
    match ctx.fails .mkObject with
    | some e => .error e
    | none => .ok (.object (serdeObjEntries ctx obj))

/-- Loop body of the `Value::Array` arm: `for (i, item) in
arr.iter().enumerate()`, assigning `js_arr.set(i, js_val)` only when the
recursive conversion succeeded (`if let Ok`); `i` is the index in the
original input array, and `acc` is the JS array built so far. -/
def serdeArrayElems (ctx : JsCtx) : List Value → Nat → List JsValue → List JsValue
  | [], _, acc => acc
  | item :: rest, i, acc =>
    match serde_value_to_js ctx item with
    | .ok v => serdeArrayElems ctx rest (i + 1) (jsArraySet acc i v)
    | .error _ => serdeArrayElems ctx rest (i + 1) acc

/-- Loop body of the `Value::Object` arm: `js_obj.set(k, js_val)` only when
the recursive conversion succeeded.  `serde_json` map keys are unique, so
property assignment is modelled as appending the entry. -/
def serdeObjEntries (ctx : JsCtx) : List (String × Value) → List (String × JsValue)
  | [] => []
  | (k, v) :: rest =>
    match serde_value_to_js ctx v with
    | .ok jv => (k, jv) :: serdeObjEntries ctx rest
    | .error _ => serdeObjEntries ctx rest

end

/-! ## Helper discovery (`load_js_helpers`, `is_builtin_js_function`) -/

/-- Deny-list of `is_builtin_js_function` (src/js_helpers.rs lines 291-305),
transcribed verbatim. -/
def BUILTINS : List String :=
  ["undefined", "NaN", "Math", "Reflect", "globalThis", "JSON", "Atomics",
   "performance", "Infinity", "Object", "Function", "Error", "EvalError",
   "RangeError", "ReferenceError", "SyntaxError", "TypeError", "URIError",
   "InternalError", "AggregateError", "Iterator", "Array", "parseInt",
   "parseFloat", "isNaN", "isFinite", "queueMicrotask", "decodeURI",
   "decodeURIComponent", "encodeURI", "encodeURIComponent", "escape",
   "unescape", "Number", "Boolean", "String", "Symbol", "eval", "Date",
   "RegExp", "Proxy", "Map", "Set", "WeakMap", "WeakSet", "ArrayBuffer",
   "SharedArrayBuffer", "Uint8ClampedArray", "Int8Array", "Uint8Array",
   "Int16Array", "Uint16Array", "Int32Array", "Uint32Array", "BigInt64Array",
   "BigUint64Array", "Float16Array", "Float32Array", "Float64Array",
   "DataView", "Promise", "BigInt", "WeakRef", "FinalizationRegistry",
   "DOMException"]

/-- Model of `is_builtin_js_function` (src/js_helpers.rs lines 290-307):
membership in the fixed deny-list. -/
def is_builtin_js_function (name : String) : Bool :=
  BUILTINS.contains name

/-- Global scope of the interpreter context as the discovery scan observes
it: the ordered list of own string-named keys
(`globals.own_keys::<String>(Filter::new().string())`) and the property
lookup `globals.get::<JsValue>(&key)` (where `none` models a lookup the
engine reports as `Err`, which the scan skips). -/
structure GlobalScope where
  keys : List String
  get : String → Option JsValue

/-- Discovery scan of `load_js_helpers` (src/js_helpers.rs lines 96-112):
for every own string key in enumeration order, skip it when
`is_builtin_js_function` answers true, otherwise fetch the value and keep
the key exactly when the value is a function. -/
def discover (g : GlobalScope) : List String :=
  g.keys.filter fun k =>
    !is_builtin_js_function k &&
      (match g.get k with
       | some v => v.is_function
       | none => false)

/-- Outcome of evaluating the user helper script in the fresh context:
`evalError` is the error the evaluation raised, if any (the Rust code
receives it from `ctx.eval(js_code).catch(&ctx)` and discards it with
`let _ =`), and `globals` is the global scope as it stands afterwards,
including whatever the script defined before a failing statement. -/
structure EvalOutcome where
  evalError : Option String
  globals : GlobalScope

/-- Model of the body of `load_js_helpers` after the script file was read
and the runtime and context were created (src/js_helpers.rs lines 80-121):
the user script's evaluation result is discarded (`let _ = ctx.eval(..)`),
and the discovery scan runs over the global scope as it stands.  The
surrounding `ctx.with` closure always returns `Ok(found)`, so the function
returns the discovered names. -/
def load_js_helpers (o : EvalOutcome) : Except String (List String) :=
  .ok (discover o.globals)

/-! ## Helper invocation (the closure built in `register_with_handlebars`) -/

/-- Interpreter session state as the helper closure observes it:
the global property lookup, the behaviour the engine gives to calling the
function value identified by `id` on an argument list (an `.error` models a
caught JS exception carrying the engine's error text), and the error text
the engine attaches to a failed typed property get of a named property. -/
structure Session where
  globals : String → Option JsValue
  callFunction : String → List JsValue → Except String JsValue
  getErrText : String → String

/-- Argument conversion loop (src/js_helpers.rs lines 148-154): each
Handlebars parameter is converted with `serde_value_to_js` and pushed only
on success (`if let Ok`), so failed parameters are dropped and later
arguments shift left. -/
def convertParams (ctx : JsCtx) (params : List Value) : List JsValue :=
  params.filterMap fun p => (serde_value_to_js ctx p).toOption

/-- Arity dispatch (src/js_helpers.rs lines 156-207): `match js_args.len()`
with one explicit fixed-arity call shape per count 0 through 6, and a
fallback for 7 or more that creates a fresh JS array (fallible, consulting
the oracle), fills it with all arguments, and calls the function on
`(Undefined, args_arr)`.  The outer `Except` layer is the closure's own
error channel (the `?` on `Array::new`); the inner one is the caught JS
call result. -/
def dispatch (s : Session) (ctx : JsCtx) (fid : String) (js_args : List JsValue) :
    Except String (Except String JsValue) :=
  match js_args.length with
  | 0 => .ok (s.callFunction fid [])
  | 1 => .ok (s.callFunction fid [js_args.getD 0 .undefined])
  | 2 => .ok (s.callFunction fid [js_args.getD 0 .undefined, js_args.getD 1 .undefined])
  | 3 => .ok (s.callFunction fid
      [js_args.getD 0 .undefined, js_args.getD 1 .undefined, js_args.getD 2 .undefined])
  | 4 => .ok (s.callFunction fid
      [js_args.getD 0 .undefined, js_args.getD 1 .undefined, js_args.getD 2 .undefined,
       js_args.getD 3 .undefined])
  | 5 => .ok (s.callFunction fid
      [js_args.getD 0 .undefined, js_args.getD 1 .undefined, js_args.getD 2 .undefined,
       js_args.getD 3 .undefined, js_args.getD 4 .undefined])
  | 6 => .ok (s.callFunction fid
      [js_args.getD 0 .undefined, js_args.getD 1 .undefined, js_args.getD 2 .undefined,
       js_args.getD 3 .undefined, js_args.getD 4 .undefined, js_args.getD 5 .undefined])
  | _ + 7 =>
    match ctx.fails .mkArray with
    | some e => .error e
    | none => .ok (s.callFunction fid [.undefined, .array js_args])

/-- Result coercion (src/js_helpers.rs lines 209-240): a string result is
returned as is; any other result is serialized by looking up the global
`JSON` object, fetching its `stringify` property as a function, and calling
it; a caught JS call error is wrapped as `JS call failed`. -/
def coerceResult (s : Session) (js_result : Except String JsValue) : Except String String :=
  match js_result with
  | .ok result_val =>
    match result_val.as_string with
    | some str => .ok str
    | none =>
      match s.globals "JSON" with
      | some (.object json_global) =>
        match json_global.lookup "stringify" with
        | some (.function sid) =>
          match s.callFunction sid [result_val] with
          | .ok json_val =>
            match json_val.as_string with
            | some json_str => .ok json_str
            | none => .error "JSON.stringify returned non-string"
          | .error e => .error ("JSON.stringify failed: " ++ e)
        | _ => .error ("JSON.stringify not found: " ++ s.getErrText "stringify")
      | _ => .error ("JSON global not found: " ++ s.getErrText "JSON")
  | .error e => .error ("JS call failed: " ++ e)

/-- Body of the `ctx_guard.with` closure of one helper invocation
(src/js_helpers.rs lines 140-241), producing the `call_result` of type
`Result<String, String>`: function lookup, argument conversion, arity
dispatch, result coercion. -/
def js_helper_call (s : Session) (ctx : JsCtx) (js_name : String) (params : List Value) :
    Except String String :=
  match s.globals js_name with
  | some (.function fid) =>
    match dispatch s ctx fid (convertParams ctx params) with
    | .ok js_result => coerceResult s js_result
    | .error e => .error e
  | _ => .error ("Helper '" ++ js_name ++ "' not found: " ++ s.getErrText js_name)

/-- Outer helper closure (src/js_helpers.rs lines 244-255): a successful
`call_result` is written to the template output (modelled as returning it),
and a failure becomes one `RenderError` (modelled by its message) tagging
the inner error with the helper's name. -/
def js_helper_render (s : Session) (ctx : JsCtx) (js_name : String) (params : List Value) :
    Except String String :=
  match js_helper_call s ctx js_name params with
  | .ok output => .ok output
  | .error e => .error ("Helper '" ++ js_name ++ "': " ++ e)

/-! ## Specification-side definitions -/

mutual

/-- Modelled from the spec: the native-to-generic direction `to_generic` of
the Value Marshaller (spec section 4.1 read backwards) is not implemented
anywhere under src/ (the code only serializes results through the
interpreter's own `JSON.stringify`), so it is modelled from the spec's
mapping: interpreter null maps to Null, bool to Bool, an interpreter
integer to an integral Number (with `serde_json`'s sign normalization:
non-negative integers become the unsigned variant), an interpreter float to
a float Number, a string to String, containers recursively.  `undefined`
(an array hole) and function values, which have no Generic shape, map to
Null, matching how the interpreter's own serializer treats holes. -/
def to_generic : JsValue → Value
  | .null => .null
  | .undefined => .null
  | .bool b => .bool b
  | .int i => .number (if 0 ≤ i then .posInt i.toNat else .negInt i)
  | .float f => .number (.float f)
  | .string s => .string s
  | .array xs => .array (to_generic_list xs)
  | .object es => .object (to_generic_entries es)
  | .function _ => .null

/-- Recursive helper of `to_generic` for array elements. -/
def to_generic_list : List JsValue → List Value
  | [] => []
  | x :: rest => to_generic x :: to_generic_list rest

/-- Recursive helper of `to_generic` for object entries. -/
def to_generic_entries : List (String × JsValue) → List (String × Value)
  | [] => []
  | (k, v) :: rest => (k, to_generic v) :: to_generic_entries rest

end

mutual

/-- Values whose numbers are all either `i64`-representable integers
(respecting `serde_json`'s invariants: the unsigned variant at most
`i64::MAX`, the negative variant strictly negative) or floats.  These are
exactly the values not hit by the integral-but-not-`i64` lossy path of
`serde_value_to_js`. -/
def roundSafe : Value → Bool
  | .null => true
  | .bool _ => true
  | .number n =>
    match n with
    | .posInt m => decide (m ≤ i64Max)
    | .negInt i => decide (i < 0)
    | .float _ => true
  | .string _ => true
  | .array xs => roundSafeList xs
  | .object es => roundSafeEntries es

/-- Recursive helper of `roundSafe` for array elements. -/
def roundSafeList : List Value → Bool
  | [] => true
  | x :: rest => roundSafe x && roundSafeList rest

/-- Recursive helper of `roundSafe` for object entries. -/
def roundSafeEntries : List (String × Value) → Bool
  | [] => true
  | (_, v) :: rest => roundSafe v && roundSafeEntries rest

end

/-- Declarative description of the JS array produced from per-element
conversion outcomes (`some` = converted value, `none` = failed element):
every converted element sits at its original index, failed elements leave
`undefined` holes, and the array ends at the last converted element
(trailing failures contribute nothing). -/
def arrayFromSlots : List (Option JsValue) → List JsValue
  | [] => []
  | some v :: rest => v :: arrayFromSlots rest
  | none :: rest =>
    match arrayFromSlots rest with
    | [] => []
    | r => .undefined :: r

/-- Replay of the array-conversion loop on precomputed outcomes, used to
bridge `serdeArrayElems` and `arrayFromSlots`. -/
def buildSlots (i : Nat) (acc : List JsValue) : List (Option JsValue) → List JsValue
  | [] => acc
  | none :: rest => buildSlots (i + 1) acc rest
  | some v :: rest => buildSlots (i + 1) (jsArraySet acc i v) rest

/-! ## Lock-trace model of one helper invocation (concurrency claim)

The helper closure takes the session lock first
(`let ctx_guard = ctx_clone.lock().unwrap();`, src/js_helpers.rs line 138),
performs all interpreter work inside `ctx_guard.with(..)` (lines 140-241),
and releases the lock when the guard is dropped at the end of the closure.
`helper_events t n` is that event trace for thread `t`, with the
interpreter work abstracted as `n` steps. -/

/-- Events of the lock-trace model: a thread acquiring the session mutex,
releasing it, or performing one step of interpreter work. -/
inductive LockEvent where
  | acquire (t : Bool)
  | release (t : Bool)
  | jsStep (t : Bool)
deriving DecidableEq, Repr

/-- Event trace of one helper invocation by thread `t` as the source orders
it: acquire the session lock, do all interpreter work (`n` steps), release
the lock. -/
def helper_events (t : Bool) (n : Nat) : List LockEvent :=
  .acquire t :: (List.replicate n (.jsStep t) ++ [.release t])

/-- Interleaving of two event lists: `Interleaving l r t` holds when `t`
merges `l` and `r` preserving the order within each. -/
inductive Interleaving : List LockEvent → List LockEvent → List LockEvent → Prop where
  | nil : Interleaving [] [] []
  | left {a l r t} : Interleaving l r t → Interleaving (a :: l) r (a :: t)
  | right {a l r t} : Interleaving l r t → Interleaving l (a :: r) (a :: t)

/-- Semantics of `std::sync::Mutex` on a trace: starting from holder state
`s` (`none` = free, `some t` = held by thread `t`), an acquire succeeds
only when the mutex is free and a release only by the holder; interpreter
steps do not change the holder.  A trace is valid when no thread proceeds
past a blocked acquire. -/
def mutexOk : Option Bool → List LockEvent → Bool
  | _, [] => true
  | s, .jsStep _ :: rest => mutexOk s rest
  | none, .acquire t :: rest => mutexOk (some t) rest
  | some _, .acquire _ :: _ => false
  | some t, .release u :: rest => t == u && mutexOk none rest
  | none, .release _ :: _ => false

/-! ## Concrete fixtures for witnesses and counterexamples -/

/-- Engine oracle in which injecting the boolean `true` fails and every
other primitive succeeds, exhibiting the element-skip paths. -/
def ctxBadBool : JsCtx :=
  ⟨fun op => match op with | .mkBool true => some "boom" | _ => none⟩

/-- Tiny concrete session: global functions `f` (returns the string
`"ok"`), `g` (returns the integer 1), `seven` (echoes nothing), a `JSON`
global holding a working `stringify`, and a `bad` global that throws. -/
def sessDemo : Session where
  globals := fun s =>
    if s = "f" then some (.function "f")
    else if s = "g" then some (.function "g")
    else if s = "seven" then some (.function "seven")
    else if s = "bad" then some (.function "bad")
    else if s = "JSON" then some (.object [("stringify", .function "JSON.stringify")])
    else none
  callFunction := fun fid _ =>
    if fid = "f" then .ok (.string "ok")
    else if fid = "g" then .ok (.int 1)
    else if fid = "seven" then .ok (.string "seven")
    else if fid = "JSON.stringify" then .ok (.string "1")
    else if fid = "bad" then .error "Error: boom"
    else .error "not a function"
  getErrText := fun _ => "exception generated by quickjs"

/-- Session with an empty global scope (every lookup fails). -/
def sessEmpty : Session where
  globals := fun _ => none
  callFunction := fun _ _ => .error "not a function"
  getErrText := fun _ => "exception generated by quickjs"

/-! ## Supporting lemmas -/

theorem jsArraySet_nil (i : Nat) (v : JsValue) :
    jsArraySet [] i v = List.replicate i .undefined ++ [v] := by
  induction i with
  | zero => rfl
  | succ k ih => simp [jsArraySet, ih, List.replicate_succ]

theorem jsArraySet_eq : ∀ (acc : List JsValue) (i : Nat) (v : JsValue), acc.length ≤ i →
    jsArraySet acc i v = acc ++ List.replicate (i - acc.length) .undefined ++ [v] := by
  intro acc
  induction acc with
  | nil => intro i v _; simpa using jsArraySet_nil i v
  | cons x rest ih =>
    intro i v h
    cases i with
    | zero => simp at h
    | succ k =>
      simp only [jsArraySet]
      rw [ih k v (by simpa using h)]
      simp [List.length_cons, Nat.succ_sub_succ]

theorem jsArraySet_at_length (acc : List JsValue) (v : JsValue) :
    jsArraySet acc acc.length v = acc ++ [v] := by
  rw [jsArraySet_eq acc acc.length v (Nat.le_refl _)]
  simp

theorem serdeArrayElems_eq_buildSlots (ctx : JsCtx) :
    ∀ (xs : List Value) (i : Nat) (acc : List JsValue),
    serdeArrayElems ctx xs i acc =
      buildSlots i acc (xs.map fun x => (serde_value_to_js ctx x).toOption) := by
  intro xs
  induction xs with
  | nil => intro i acc; rfl
  | cons x rest ih =>
    intro i acc
    simp only [List.map_cons]
    cases h : serde_value_to_js ctx x with
    | ok v => simp only [serdeArrayElems, h, Except.toOption, buildSlots, ih]
    | error e => simp only [serdeArrayElems, h, Except.toOption, buildSlots, ih]

theorem buildSlots_of_nil : ∀ (slots : List (Option JsValue)) (i : Nat) (acc : List JsValue),
    arrayFromSlots slots = [] → buildSlots i acc slots = acc := by
  intro slots
  induction slots with
  | nil => intro i acc _; rfl
  | cons hd rest ih =>
    intro i acc h
    cases hd with
    | some v => simp [arrayFromSlots] at h
    | none =>
      cases hfs : arrayFromSlots rest with
      | nil => simpa [buildSlots] using ih (i + 1) acc hfs
      | cons z zs => simp [arrayFromSlots, hfs] at h

theorem buildSlots_of_ne_nil :
    ∀ (slots : List (Option JsValue)) (i : Nat) (acc : List JsValue),
    acc.length ≤ i → arrayFromSlots slots ≠ [] →
    buildSlots i acc slots =
      acc ++ List.replicate (i - acc.length) .undefined ++ arrayFromSlots slots := by
  intro slots
  induction slots with
  | nil => intro i acc _ h; simp [arrayFromSlots] at h
  | cons hd rest ih =>
    intro i acc hlen h
    cases hd with
    | some v =>
      have hset := jsArraySet_eq acc i v hlen
      cases hfs : arrayFromSlots rest with
      | nil =>
        simp only [buildSlots, buildSlots_of_nil rest (i + 1) _ hfs, hset,
          arrayFromSlots, hfs]
      | cons z zs =>
        have hsetlen : (jsArraySet acc i v).length ≤ i + 1 := by
          rw [hset]; simp; omega
        have hseteq : (jsArraySet acc i v).length = i + 1 := by
          rw [hset]; simp; omega
        simp only [buildSlots]
        rw [ih (i + 1) (jsArraySet acc i v) hsetlen (by rw [hfs]; simp), hfs, hseteq, hset]
        simp [arrayFromSlots, hfs, List.append_assoc]
    | none =>
      cases hfs : arrayFromSlots rest with
      | nil =>
        exact absurd (by simp [arrayFromSlots, hfs]) h
      | cons z zs =>
        simp only [buildSlots]
        rw [ih (i + 1) acc (by omega)]
        · rw [hfs]
          have hstep : i + 1 - acc.length = (i - acc.length) + 1 := by omega
          simp [arrayFromSlots, hfs, hstep, List.replicate_succ']
        · rw [hfs]; simp

theorem serdeArrayElems_eq_arrayFromSlots (ctx : JsCtx) (xs : List Value) :
    serdeArrayElems ctx xs 0 [] =
      arrayFromSlots (xs.map fun x => (serde_value_to_js ctx x).toOption) := by
  rw [serdeArrayElems_eq_buildSlots]
  cases h : arrayFromSlots (xs.map fun x => (serde_value_to_js ctx x).toOption) with
  | nil => rw [buildSlots_of_nil _ 0 [] h]
  | cons y ys =>
    rw [buildSlots_of_ne_nil _ 0 [] (by simp) (by rw [h]; simp), h]
    simp

theorem serdeObjEntries_eq_filterMap (ctx : JsCtx) :
    ∀ (es : List (String × Value)),
    serdeObjEntries ctx es =
      es.filterMap fun kv => ((serde_value_to_js ctx kv.2).toOption).map fun j => (kv.1, j) := by
  intro es
  induction es with
  | nil => rfl
  | cons kv rest ih =>
    obtain ⟨k, v⟩ := kv
    cases h : serde_value_to_js ctx v with
    | ok jv => simp [serdeObjEntries, h, Except.toOption, ih]
    | error e => simp [serdeObjEntries, h, Except.toOption, ih]

/-- Induction principle for `Value` with pointwise hypotheses for the
nested lists. -/
theorem Value.inductionOn {motive : Value → Prop}
    (hnull : motive .null) (hbool : ∀ b, motive (.bool b))
    (hnum : ∀ n, motive (.number n)) (hstr : ∀ s, motive (.string s))
    (harr : ∀ xs, (∀ x ∈ xs, motive x) → motive (.array xs))
    (hobj : ∀ es, (∀ kv ∈ es, motive kv.2) → motive (.object es)) :
    ∀ v, motive v
  | .null => hnull
  | .bool b => hbool b
  | .number n => hnum n
  | .string s => hstr s
  | .array xs =>
    harr xs fun x hx =>
      Value.inductionOn hnull hbool hnum hstr harr hobj x
  | .object es =>
    hobj es fun kv hkv =>
      Value.inductionOn hnull hbool hnum hstr harr hobj kv.2
termination_by v => sizeOf v
decreasing_by
  · rename_i x hx
    have h1 := List.sizeOf_lt_of_mem hx
    simp only [Value.array.sizeOf_spec]
    omega
  · rename_i kv hkv
    have h1 := List.sizeOf_lt_of_mem hkv
    have h2 : sizeOf kv.2 < sizeOf kv := by
      obtain ⟨k, v2⟩ := kv
      simp only [Prod.mk.sizeOf_spec]
      omega
    simp only [Value.object.sizeOf_spec]
    omega

theorem dispatch_small (s : Session) (ctx : JsCtx) (fid : String) :
    ∀ (l : List JsValue), l.length ≤ 6 →
    dispatch s ctx fid l = .ok (s.callFunction fid l) := by
  intro l h
  rcases l with _ | ⟨a, _ | ⟨b, _ | ⟨c, _ | ⟨d, _ | ⟨e, _ | ⟨f, _ | ⟨g, rest⟩⟩⟩⟩⟩⟩⟩
  · rfl
  · rfl
  · rfl
  · rfl
  · rfl
  · rfl
  · rfl
  · simp only [List.length_cons] at h; omega

theorem dispatch_large (s : Session) (ctx : JsCtx) (fid : String) (l : List JsValue)
    (h : 7 ≤ l.length) :
    dispatch s ctx fid l =
      match ctx.fails .mkArray with
      | some e => .error e
      | none => .ok (s.callFunction fid [.undefined, .array l]) := by
  obtain ⟨k, hk⟩ : ∃ k, l.length = k + 7 := ⟨l.length - 7, by omega⟩
  unfold dispatch
  rw [hk]

theorem roundSafeList_mem : ∀ (xs : List Value), roundSafeList xs = true →
    ∀ x ∈ xs, roundSafe x = true := by
  intro xs
  induction xs with
  | nil => intro _ x hx; simp at hx
  | cons y rest ih =>
    intro h x hx
    simp only [roundSafeList, Bool.and_eq_true] at h
    rw [List.mem_cons] at hx
    rcases hx with hx | hx
    · exact hx ▸ h.1
    · exact ih h.2 x hx

theorem roundSafeEntries_mem : ∀ (es : List (String × Value)), roundSafeEntries es = true →
    ∀ kv ∈ es, roundSafe kv.2 = true := by
  intro es
  induction es with
  | nil => intro _ kv hkv; simp at hkv
  | cons e rest ih =>
    obtain ⟨k, v⟩ := e
    intro h kv hkv
    simp only [roundSafeEntries, Bool.and_eq_true] at h
    rw [List.mem_cons] at hkv
    rcases hkv with hkv | hkv
    · exact hkv ▸ h.1
    · exact ih h.2 kv hkv

theorem serdeArrayElems_roundtrip : ∀ (xs : List Value) (i : Nat) (acc : List JsValue),
    acc.length = i →
    (∀ x ∈ xs, ∃ j, serde_value_to_js ctxOk x = .ok j ∧ to_generic j = x) →
    ∃ js, serdeArrayElems ctxOk xs i acc = acc ++ js ∧ to_generic_list js = xs := by
  intro xs
  induction xs with
  | nil => intro i acc _ _; exact ⟨[], by simp [serdeArrayElems], rfl⟩
  | cons x rest ih =>
    intro i acc hlen hall
    obtain ⟨j, hj, hg⟩ := hall x (by simp)
    have hset : jsArraySet acc i j = acc ++ [j] := by
      rw [← hlen]; exact jsArraySet_at_length acc j
    obtain ⟨js, hjs, hgl⟩ :=
      ih (i + 1) (acc ++ [j]) (by simp [← hlen]) fun y hy => hall y (List.mem_cons_of_mem _ hy)
    refine ⟨j :: js, ?_, ?_⟩
    · simp only [serdeArrayElems, hj, hset, hjs, List.append_assoc, List.singleton_append]
    · simp [to_generic_list, hgl, hg]

theorem serdeObjEntries_roundtrip : ∀ (es : List (String × Value)),
    (∀ kv ∈ es, ∃ j, serde_value_to_js ctxOk kv.2 = .ok j ∧ to_generic j = kv.2) →
    ∃ ejs, serdeObjEntries ctxOk es = ejs ∧ to_generic_entries ejs = es := by
  intro es
  induction es with
  | nil => intro _; exact ⟨[], rfl, rfl⟩
  | cons e rest ih =>
    obtain ⟨k, v⟩ := e
    intro hall
    obtain ⟨j, hj, hg⟩ := hall (k, v) (by simp)
    obtain ⟨ejs, hejs, hge⟩ := ih fun kv hkv => hall kv (List.mem_cons_of_mem _ hkv)
    refine ⟨(k, j) :: ejs, ?_, ?_⟩
    · simp only [serdeObjEntries, hj, hejs]
    · simp [to_generic_entries, hge, hg]

theorem interleaving_left_nil : ∀ {l r t : List LockEvent},
    Interleaving l r t → l = [] → t = r := by
  intro l r t h
  induction h with
  | nil => intro _; rfl
  | left h ih => intro hl; exact absurd hl (by simp)
  | right h ih => intro hl; rw [ih hl]

theorem interleaving_symm : ∀ {l r t : List LockEvent},
    Interleaving l r t → Interleaving r l t := by
  intro l r t h
  induction h with
  | nil => exact .nil
  | left h ih => exact .right ih
  | right h ih => exact .left ih

theorem locked_run (tA : Bool) :
    ∀ (k : Nat) (r tr : List LockEvent),
    Interleaving (List.replicate k (.jsStep tA) ++ [.release tA]) r tr →
    mutexOk (some tA) tr = true →
    (∀ hd tl, r = hd :: tl → ∃ tB, hd = .acquire tB) →
    tr = List.replicate k (.jsStep tA) ++ [.release tA] ++ r := by
  intro k
  induction k with
  | zero =>
    intro r tr h hm hr
    simp only [List.replicate_zero, List.nil_append] at h ⊢
    cases h with
    | left h' =>
      rw [interleaving_left_nil h' rfl, List.singleton_append]
    | right h' =>
      rename_i a l' t'
      obtain ⟨tB, rfl⟩ := hr _ _ rfl
      simp [mutexOk] at hm
  | succ k ih =>
    intro r tr h hm hr
    rw [List.replicate_succ] at h ⊢
    simp only [List.cons_append] at h ⊢
    cases h with
    | left h' =>
      rename_i t'
      have hm' : mutexOk (some tA) t' = true := by simpa [mutexOk] using hm
      rw [ih _ _ h' hm' hr]
    | right h' =>
      obtain ⟨tB, rfl⟩ := hr _ _ rfl
      simp [mutexOk] at hm

theorem marshal_roundtrip : ∀ (v : Value), roundSafe v = true →
    ∃ j, serde_value_to_js ctxOk v = .ok j ∧ to_generic j = v := by
  intro v
  induction v using Value.inductionOn with
  | hnull => intro _; exact ⟨.null, rfl, rfl⟩
  | hbool b => intro _; exact ⟨.bool b, rfl, rfl⟩
  | hstr s => intro _; exact ⟨.string s, rfl, rfl⟩
  | hnum n =>
    intro hsafe
    cases n with
    | posInt m =>
      have hm : m ≤ i64Max := by simpa [roundSafe] using hsafe
      refine ⟨.int (m : Int), ?_, ?_⟩
      · simp [serde_value_to_js, N.as_i64, hm, ctxOk]
      · simp [to_generic]
    | negInt i =>
      have hi : i < 0 := by simpa [roundSafe] using hsafe
      refine ⟨.int i, ?_, ?_⟩
      · simp [serde_value_to_js, N.as_i64, ctxOk]
      · simp only [to_generic]
        rw [if_neg (by omega)]
    | float f =>
      refine ⟨.float f, ?_, rfl⟩
      simp [serde_value_to_js, N.as_i64, N.as_f64, ctxOk]
  | harr xs ihx =>
    intro hsafe
    have hall : ∀ x ∈ xs, ∃ j, serde_value_to_js ctxOk x = .ok j ∧ to_generic j = x :=
      fun x hx => ihx x hx (roundSafeList_mem xs (by simpa [roundSafe] using hsafe) x hx)
    obtain ⟨js, hjs, hgl⟩ := serdeArrayElems_roundtrip xs 0 [] rfl hall
    refine ⟨.array js, ?_, ?_⟩
    · have hdef : serde_value_to_js ctxOk (.array xs) =
          .ok (.array (serdeArrayElems ctxOk xs 0 [])) := rfl
      rw [hdef, hjs]
      simp
    · simp [to_generic, hgl]
  | hobj es ihe =>
    intro hsafe
    have hall : ∀ kv ∈ es, ∃ j, serde_value_to_js ctxOk kv.2 = .ok j ∧ to_generic j = kv.2 :=
      fun kv hkv => ihe kv hkv (roundSafeEntries_mem es (by simpa [roundSafe] using hsafe) kv hkv)
    obtain ⟨ejs, hejs, hge⟩ := serdeObjEntries_roundtrip es hall
    refine ⟨.object ejs, ?_, ?_⟩
    · have hdef : serde_value_to_js ctxOk (.object es) =
          .ok (.object (serdeObjEntries ctxOk es)) := rfl
      rw [hdef, hejs]
    · simp [to_generic, hge]

/-! ## Claim theorems -/

/-- C1, counterexample: the claim says a failed array element is "silently
skipped so the converted container holds exactly the successfully converted
members in order".  Under an engine in which converting `true` fails, the
array `[true, "x"]` converts to `[undefined, "x"]` — the failed element
leaves an `undefined` hole at its original index (because the loop assigns
at `enumerate`'s index), which is not the compacted list `["x"]` of
successfully converted members. -/
theorem c1_counterexample :
    serde_value_to_js ctxBadBool (.array [.bool true, .string "x"]) =
      .ok (.array [.undefined, .string "x"]) ∧
    ([Value.bool true, Value.string "x"].filterMap
        fun v => (serde_value_to_js ctxBadBool v).toOption) = [.string "x"] ∧
    JsValue.array [.undefined, .string "x"] ≠ JsValue.array [.string "x"] := by
  refine ⟨rfl, rfl, ?_⟩
  intro h
  simp at h

/-- C1 (amended): leaf conversions map Null to interpreter null, Bool to
bool, an `i64`-representable Number to an interpreter integer, any other
Number (via `as_f64`) to an interpreter float, and String to a string,
whenever the engine primitive for that leaf succeeds.  For an Array
(provided the engine can create the container) each successfully converted
element sits at its original index and each failed element leaves an
`undefined` hole, the array being truncated after the last success
(`arrayFromSlots`); for an Object (provided container creation succeeds)
the entries are exactly the successfully converted ones in order.  In both
cases element failures do not abort the container conversion. -/
theorem c1_marshalling (ctx : JsCtx) :
    (ctx.fails .mkNull = none → serde_value_to_js ctx .null = .ok .null) ∧
    (∀ b, ctx.fails (.mkBool b) = none →
      serde_value_to_js ctx (.bool b) = .ok (.bool b)) ∧
    (∀ n i, n.as_i64 = some i → ctx.fails (.mkInt i) = none →
      serde_value_to_js ctx (.number n) = .ok (.int i)) ∧
    (∀ n f, n.as_i64 = none → n.as_f64 = some f → ctx.fails (.mkFloat f) = none →
      serde_value_to_js ctx (.number n) = .ok (.float f)) ∧
    (∀ str, ctx.fails (.mkString str) = none →
      serde_value_to_js ctx (.string str) = .ok (.string str)) ∧
    (∀ xs, ctx.fails .mkArray = none →
      serde_value_to_js ctx (.array xs) =
        .ok (.array (arrayFromSlots
          (xs.map fun x => (serde_value_to_js ctx x).toOption)))) ∧
    (∀ es, ctx.fails .mkObject = none →
      serde_value_to_js ctx (.object es) =
        .ok (.object (es.filterMap fun kv =>
          ((serde_value_to_js ctx kv.2).toOption).map fun j => (kv.1, j)))) := by
  refine ⟨?_, ?_, ?_, ?_, ?_, ?_, ?_⟩
  · intro h; simp [serde_value_to_js, h]
  · intro b h; simp [serde_value_to_js, h]
  · intro n i hi h; simp [serde_value_to_js, hi, h]
  · intro n f hi hf h; simp [serde_value_to_js, hi, hf, h]
  · intro str h; simp [serde_value_to_js, h]
  · intro xs h
    simp only [serde_value_to_js, h]
    rw [serdeArrayElems_eq_arrayFromSlots]
  · intro es h
    simp only [serde_value_to_js, h]
    rw [serdeObjEntries_eq_filterMap]

/-- C1, witness: the amended theorem applied at concrete inputs (an
all-success leaf, the holed array from the counterexample context, and a
one-entry object). -/
theorem c1_marshalling_witness :
    serde_value_to_js ctxOk .null = .ok .null ∧
    serde_value_to_js ctxBadBool (.array [.bool true, .string "x"]) =
      .ok (.array (arrayFromSlots ([Value.bool true, Value.string "x"].map
        fun x => (serde_value_to_js ctxBadBool x).toOption))) ∧
    serde_value_to_js ctxOk (.object [("a", .null)]) =
      .ok (.object (([(("a" : String), Value.null)]).filterMap fun kv =>
        ((serde_value_to_js ctxOk kv.2).toOption).map fun j => (kv.1, j))) :=
  ⟨(c1_marshalling ctxOk).1 rfl,
   (c1_marshalling ctxBadBool).2.2.2.2.2.1 [.bool true, .string "x"] rfl,
   (c1_marshalling ctxOk).2.2.2.2.2.2 [("a", .null)] rfl⟩

/-- C2: when the helper's name resolves to a function, the call is
dispatched on the number of successfully converted arguments: with at most
6 of them the function is called with exactly those positional arguments
(the fixed-arity shapes), and with 7 or more (provided the engine can
create the packing array) it is called with exactly two arguments, an
undefined placeholder followed by the packed array of all of them. -/
theorem c2_arity_dispatch (s : Session) (ctx : JsCtx) (name : String) (params : List Value)
    (fid : String) (hf : s.globals name = some (.function fid)) :
    ((convertParams ctx params).length ≤ 6 →
      js_helper_call s ctx name params =
        coerceResult s (s.callFunction fid (convertParams ctx params))) ∧
    (7 ≤ (convertParams ctx params).length → ctx.fails .mkArray = none →
      js_helper_call s ctx name params =
        coerceResult s
          (s.callFunction fid [.undefined, .array (convertParams ctx params)])) := by
  constructor
  · intro h
    simp only [js_helper_call, hf, dispatch_small s ctx fid _ h]
  · intro h7 harr
    simp only [js_helper_call, hf, dispatch_large s ctx fid _ h7, harr]

/-- C2, witness: the dispatch theorem applied to a 0-argument call and a
7-argument call against the demo session. -/
theorem c2_arity_dispatch_witness :
    (js_helper_call sessDemo ctxOk "f" [] =
      coerceResult sessDemo (sessDemo.callFunction "f" (convertParams ctxOk []))) ∧
    (js_helper_call sessDemo ctxOk "seven" (List.replicate 7 .null) =
      coerceResult sessDemo
        (sessDemo.callFunction "seven"
          [.undefined, .array (convertParams ctxOk (List.replicate 7 .null))])) :=
  ⟨(c2_arity_dispatch sessDemo ctxOk "f" [] "f" rfl).1 (by simp [convertParams]),
   (c2_arity_dispatch sessDemo ctxOk "seven" (List.replicate 7 .null) "seven" rfl).2
     (by rfl) rfl⟩

/-- C3: discovery returns exactly the own string-named global keys that are
not in the fixed deny-list and whose value is a function; a user function
under a deny-listed name is excluded and every other function name is
included. -/
theorem c3_discovery (o : EvalOutcome) (k : String) :
    load_js_helpers o = .ok (discover o.globals) ∧
    (k ∈ discover o.globals ↔
      k ∈ o.globals.keys ∧ is_builtin_js_function k = false ∧
        ∃ v, o.globals.get k = some v ∧ v.is_function = true) := by
  refine ⟨rfl, ?_⟩
  simp only [discover, List.mem_filter, Bool.and_eq_true, Bool.not_eq_true']
  constructor
  · rintro ⟨hk, hb, hv⟩
    refine ⟨hk, hb, ?_⟩
    cases hg : o.globals.get k with
    | none => rw [hg] at hv; cases hv
    | some v => exact ⟨v, rfl, by rw [hg] at hv; exact hv⟩
  · rintro ⟨hk, hb, v, hg, hfn⟩
    exact ⟨hk, hb, by rw [hg]; exact hfn⟩

theorem string_chunk_assoc (x a b c : String) (h : a ++ b = c) : x ++ a ++ b = x ++ c := by
  rw [String.append_assoc, h]

theorem string_chunk_assoc' (x a b c e : String) (h : a ++ b = c) :
    x ++ a ++ (b ++ e) = x ++ c ++ e := by
  rw [← String.append_assoc (x ++ a) b e, string_chunk_assoc x a b c h]

/-- C4: when the JS call returns without throwing, a string result is
written to the output unchanged; any other result is serialized by calling
the global `JSON.stringify` on it, its string result being written; a
missing `JSON` global, a missing `stringify` member, a throwing serializer
or a non-string serializer result each fail the invocation with an error
describing that cause. -/
theorem c4_result_coercion (s : Session) (ctx : JsCtx) (name : String) (params : List Value)
    (fid : String) (v : JsValue)
    (hf : s.globals name = some (.function fid))
    (hres : dispatch s ctx fid (convertParams ctx params) = .ok (.ok v)) :
    (∀ str, v = .string str → js_helper_render s ctx name params = .ok str) ∧
    (v.as_string = none →
      ∀ jo sid, s.globals "JSON" = some (.object jo) →
        jo.lookup "stringify" = some (.function sid) →
        ((∀ t, s.callFunction sid [v] = .ok (.string t) →
            js_helper_render s ctx name params = .ok t) ∧
         (∀ u, s.callFunction sid [v] = .ok u → u.as_string = none →
            js_helper_render s ctx name params =
              .error ("Helper '" ++ name ++ "': JSON.stringify returned non-string")) ∧
         (∀ e, s.callFunction sid [v] = .error e →
            js_helper_render s ctx name params =
              .error ("Helper '" ++ name ++ "': JSON.stringify failed: " ++ e)))) ∧
    (v.as_string = none → s.globals "JSON" = none →
      js_helper_render s ctx name params =
        .error ("Helper '" ++ name ++ "': JSON global not found: " ++ s.getErrText "JSON")) ∧
    (v.as_string = none → ∀ jo, s.globals "JSON" = some (.object jo) →
      jo.lookup "stringify" = none →
      js_helper_render s ctx name params =
        .error ("Helper '" ++ name ++ "': JSON.stringify not found: " ++
          s.getErrText "stringify")) := by
  have hcall : js_helper_call s ctx name params = coerceResult s (.ok v) := by
    simp only [js_helper_call, hf, hres]
  refine ⟨?_, ?_, ?_, ?_⟩
  · rintro str rfl
    simp [js_helper_render, hcall, coerceResult, JsValue.as_string]
  · intro hv jo sid hjo hsid
    refine ⟨?_, ?_, ?_⟩
    · intro t ht
      simp only [js_helper_render, hcall, coerceResult, hv, hjo, hsid, ht]
      simp [JsValue.as_string]
    · intro u hu hus
      simp only [js_helper_render, hcall, coerceResult, hv, hjo, hsid, hu, hus]
      rw [string_chunk_assoc _ "': " "JSON.stringify returned non-string"
        "': JSON.stringify returned non-string" rfl]
    · intro e he
      simp only [js_helper_render, hcall, coerceResult, hv, hjo, hsid, he]
      rw [string_chunk_assoc' _ "': " "JSON.stringify failed: "
        "': JSON.stringify failed: " e rfl]
  · intro hv hjson
    simp only [js_helper_render, hcall, coerceResult, hv, hjson]
    rw [string_chunk_assoc' _ "': " "JSON global not found: "
        "': JSON global not found: " _ rfl]
  · intro hv jo hjo hno
    simp only [js_helper_render, hcall, coerceResult, hv, hjo, hno]
    rw [string_chunk_assoc' _ "': " "JSON.stringify not found: "
        "': JSON.stringify not found: " _ rfl]

/-- C4, witness: the coercion theorem applied to the demo session, for a
helper returning a string (passed through) and one returning an integer
(serialized by the session's `JSON.stringify`). -/
theorem c4_result_coercion_witness :
    js_helper_render sessDemo ctxOk "f" [] = .ok "ok" ∧
    js_helper_render sessDemo ctxOk "g" [] = .ok "1" :=
  ⟨(c4_result_coercion sessDemo ctxOk "f" [] "f" (.string "ok") rfl rfl).1 "ok" rfl,
   ((c4_result_coercion sessDemo ctxOk "g" [] "g" (.int 1) rfl rfl).2.1 rfl
      [("stringify", .function "JSON.stringify")] "JSON.stringify" rfl rfl).1 "1" rfl⟩

/-- C5: every invocation failure — name missing or not bound to a function,
an exception thrown by the JS call, or a serialization failure — surfaces
as one templating-layer error whose message is the inner error prefixed
with the helper's name, so it contains both the name and the underlying
error text; the outcome is always either a written string or such a single
tagged error (the model is a total function: no interpreter exception
escapes as anything but an error value). -/
theorem c5_error_surfacing (s : Session) (ctx : JsCtx) (name : String) (params : List Value) :
    (∀ e, js_helper_call s ctx name params = .error e →
      js_helper_render s ctx name params = .error ("Helper '" ++ name ++ "': " ++ e) ∧
      (∃ p q, ("Helper '" ++ name ++ "': " ++ e) = p ++ name ++ q) ∧
      (∃ p q, ("Helper '" ++ name ++ "': " ++ e) = p ++ e ++ q)) ∧
    ((∀ fid, s.globals name ≠ some (.function fid)) →
      js_helper_call s ctx name params =
        .error ("Helper '" ++ name ++ "' not found: " ++ s.getErrText name)) ∧
    (∀ fid t, s.globals name = some (.function fid) →
      dispatch s ctx fid (convertParams ctx params) = .ok (.error t) →
      js_helper_render s ctx name params =
        .error ("Helper '" ++ name ++ "': JS call failed: " ++ t)) ∧
    ((∃ out, js_helper_render s ctx name params = .ok out) ∨
      (∃ e, js_helper_render s ctx name params =
        .error ("Helper '" ++ name ++ "': " ++ e))) := by
  refine ⟨?_, ?_, ?_, ?_⟩
  · intro e he
    refine ⟨by simp [js_helper_render, he], ⟨"Helper '", "': " ++ e, ?_⟩,
      ⟨"Helper '" ++ name ++ "': ", "", ?_⟩⟩
    · rw [String.append_assoc]
    · rw [String.append_empty]
  · intro h
    cases hg : s.globals name with
    | none => simp [js_helper_call, hg]
    | some v =>
      cases v with
      | function fid => exact absurd hg (h fid)
      | null => simp [js_helper_call, hg]
      | undefined => simp [js_helper_call, hg]
      | bool b => simp [js_helper_call, hg]
      | int i => simp [js_helper_call, hg]
      | float f => simp [js_helper_call, hg]
      | string str => simp [js_helper_call, hg]
      | array xs => simp [js_helper_call, hg]
      | object es => simp [js_helper_call, hg]
  · intro fid t hf hd
    simp only [js_helper_render, js_helper_call, hf, hd, coerceResult]
    rw [string_chunk_assoc' _ "': " "JS call failed: " "': JS call failed: " t rfl]
  · cases hc : js_helper_call s ctx name params with
    | ok out => exact .inl ⟨out, by simp [js_helper_render, hc]⟩
    | error e => exact .inr ⟨e, by simp [js_helper_render, hc]⟩

/-- C5, witness: the surfacing theorem applied to a lookup failure against
the empty session and to a throwing helper of the demo session. -/
theorem c5_error_surfacing_witness :
    js_helper_call sessEmpty ctxOk "up" [] =
      .error ("Helper '" ++ "up" ++ "' not found: " ++ sessEmpty.getErrText "up") ∧
    js_helper_render sessDemo ctxOk "bad" [] =
      .error ("Helper '" ++ "bad" ++ "': JS call failed: " ++ "Error: boom") :=
  ⟨(c5_error_surfacing sessEmpty ctxOk "up" []).2.1 (fun fid => by simp [sessEmpty]),
   (c5_error_surfacing sessDemo ctxOk "bad" []).2.2.1 "bad" "Error: boom" rfl rfl⟩

/-- C6: an evaluation error raised by the user script is swallowed, not
returned: `load_js_helpers` succeeds regardless of the evaluation outcome
and scans the global scope as it stands, so functions defined before the
failing statement are still discovered. -/
theorem c6_eval_error_swallowed (e : String) (g : GlobalScope) :
    load_js_helpers ⟨some e, g⟩ = .ok (discover g) ∧
    load_js_helpers ⟨some e, g⟩ = load_js_helpers ⟨none, g⟩ :=
  ⟨rfl, rfl⟩

/-- C7: the helper closure acquires the session lock before any
interpreter work and releases it only when done (`helper_events`); any
mutex-valid interleaving of two such invocations is one invocation run to
completion followed by the other, so their interpreter effects never
interleave. -/
theorem c7_mutual_exclusion (n m : Nat) (tr : List LockEvent)
    (hint : Interleaving (helper_events true n) (helper_events false m) tr)
    (hval : mutexOk none tr = true) :
    tr = helper_events true n ++ helper_events false m ∨
    tr = helper_events false m ++ helper_events true n := by
  simp only [helper_events] at hint
  cases hint with
  | left h' =>
    rename_i t'
    left
    have hm : mutexOk (some true) t' = true := by simpa [mutexOk] using hval
    have hrun := locked_run true n _ _ h' hm
      (fun hd tl hh => ⟨false, (List.cons.inj hh).1.symm⟩)
    rw [hrun]
    simp [helper_events, List.cons_append, List.append_assoc]
  | right h' =>
    rename_i t'
    right
    have hm : mutexOk (some false) t' = true := by simpa [mutexOk] using hval
    have hrun := locked_run false m _ _ (interleaving_symm h') hm
      (fun hd tl hh => ⟨true, (List.cons.inj hh).1.symm⟩)
    rw [hrun]
    simp [helper_events, List.cons_append, List.append_assoc]

/-- C7, witness: the exclusion theorem applied to the sequential schedule
of two one-step invocations. -/
theorem c7_mutual_exclusion_witness :
    helper_events true 1 ++ helper_events false 1 =
        helper_events true 1 ++ helper_events false 1 ∨
    helper_events true 1 ++ helper_events false 1 =
        helper_events false 1 ++ helper_events true 1 :=
  c7_mutual_exclusion 1 1 (helper_events true 1 ++ helper_events false 1)
    (by
      simp only [helper_events, List.replicate, List.cons_append, List.nil_append]
      exact .left (.left (.left (.right (.right (.right .nil))))))
    (by rfl)

/-- C8, counterexample: the round trip is not exact for every non-recursive
value: the integral Number `2 ^ 63` (a `u64` above `i64::MAX`) converts
through the `f64` branch to an interpreter float, and `to_generic` maps
that float back to a float Number, not the original integral Number. -/
theorem c8_counterexample :
    serde_value_to_js ctxOk (.number (.posInt 9223372036854775808)) =
      .ok (.float (.ofU64 9223372036854775808)) ∧
    to_generic (.float (.ofU64 9223372036854775808)) =
      .number (.float (.ofU64 9223372036854775808)) ∧
    Value.number (.float (.ofU64 9223372036854775808)) ≠
      Value.number (.posInt 9223372036854775808) := by
  refine ⟨rfl, rfl, ?_⟩
  intro h
  simp at h

/-- C8 (amended): `to_generic` after `to_native` (that is,
`serde_value_to_js` under the all-success engine) reproduces the value
exactly — including arrays and objects — whenever every Number in it is
either `i64`-representable or already a float (`roundSafe`); integral
Numbers above `i64::MAX` instead come back as float Numbers. -/
theorem c8_roundtrip (v : Value) (h : roundSafe v = true) :
    ∃ j, serde_value_to_js ctxOk v = .ok j ∧ to_generic j = v :=
  marshal_roundtrip v h

/-- C8, witness: the round-trip theorem applied to a concrete nested
value. -/
theorem c8_roundtrip_witness :
    ∃ j, serde_value_to_js ctxOk
        (.array [.number (.posInt 5), .string "a",
          .object [("k", .number (.negInt (-3)))]]) = .ok j ∧
      to_generic j =
        .array [.number (.posInt 5), .string "a",
          .object [("k", .number (.negInt (-3)))]] :=
  c8_roundtrip _ (by rfl)

/-- C9: the dispatch arity is the number of successfully converted
arguments, not the supplied parameter count: a parameter whose conversion
fails is dropped before dispatch, so inserting it anywhere leaves the whole
invocation identical to the invocation without it (every later argument
shifts one position left, possibly selecting a different fixed-arity
shape). -/
theorem c9_dropped_param_shifts (s : Session) (ctx : JsCtx) (name : String)
    (pre post : List Value) (bad : Value)
    (hbad : (serde_value_to_js ctx bad).toOption = none) :
    convertParams ctx (pre ++ bad :: post) =
      convertParams ctx pre ++ convertParams ctx post ∧
    js_helper_call s ctx name (pre ++ bad :: post) =
      js_helper_call s ctx name (pre ++ post) := by
  have hconv : convertParams ctx (pre ++ bad :: post) =
      convertParams ctx pre ++ convertParams ctx post := by
    simp [convertParams, List.filterMap_append, List.filterMap_cons, hbad]
  have hconv2 : convertParams ctx (pre ++ post) =
      convertParams ctx pre ++ convertParams ctx post := by
    simp [convertParams, List.filterMap_append]
  refine ⟨hconv, ?_⟩
  unfold js_helper_call
  rw [hconv, hconv2]

/-- C9, witness: the drop theorem applied to a failing boolean parameter
inserted before a null parameter. -/
theorem c9_dropped_param_shifts_witness :
    convertParams ctxBadBool ([] ++ Value.bool true :: [Value.null]) =
      convertParams ctxBadBool [] ++ convertParams ctxBadBool [Value.null] ∧
    js_helper_call sessDemo ctxBadBool "f" ([] ++ Value.bool true :: [Value.null]) =
      js_helper_call sessDemo ctxBadBool "f" ([] ++ [Value.null]) :=
  c9_dropped_param_shifts sessDemo ctxBadBool "f" [] [Value.null] (Value.bool true) rfl

/-- C10: an integral Number not representable as `i64` (a `u64` above
`i64::MAX`) converts through the `as_f64` branch to an interpreter float,
not an integer; and the final fallback to interpreter null is taken only
when the Number is representable neither as `i64` nor as `f64` (which for
`serde_json` numbers never happens, `as_f64` being total). -/
theorem c10_number_branches (ctx : JsCtx) (m : Nat)
    (hlo : i64Max < m) (hhi : m < u64Bound)
    (hf : ctx.fails (.mkFloat (.ofU64 m)) = none) :
    serde_value_to_js ctx (.number (.posInt m)) = .ok (.float (.ofU64 m)) ∧
    (∀ n : N, serde_value_to_js ctx (.number n) = .ok .null →
      n.as_i64 = none ∧ n.as_f64 = none) := by
  constructor
  · have hi : N.as_i64 (.posInt m) = none := by
      simp only [N.as_i64]
      rw [if_neg (by omega)]
    simp [serde_value_to_js, hi, N.as_f64, hf]
  · intro n h
    exfalso
    cases n with
    | posInt k =>
      by_cases hk : k ≤ i64Max
      · cases hfi : ctx.fails (.mkInt (k : Int)) with
        | none => simp [serde_value_to_js, N.as_i64, hk, hfi] at h
        | some e => simp [serde_value_to_js, N.as_i64, hk, hfi] at h
      · have hi : N.as_i64 (.posInt k) = none := by
          simp only [N.as_i64]
          rw [if_neg hk]
        cases hff : ctx.fails (.mkFloat (.ofU64 k)) with
        | none => simp [serde_value_to_js, hi, N.as_f64, hff] at h
        | some e => simp [serde_value_to_js, hi, N.as_f64, hff] at h
    | negInt i =>
      cases hfi : ctx.fails (.mkInt i) with
      | none => simp [serde_value_to_js, N.as_i64, hfi] at h
      | some e => simp [serde_value_to_js, N.as_i64, hfi] at h
    | float f =>
      cases hff : ctx.fails (.mkFloat f) with
      | none => simp [serde_value_to_js, N.as_i64, N.as_f64, hff] at h
      | some e => simp [serde_value_to_js, N.as_i64, N.as_f64, hff] at h

/-- C10, witness: the branch theorem applied at `2 ^ 63` under the
all-success engine. -/
theorem c10_number_branches_witness :
    serde_value_to_js ctxOk (.number (.posInt 9223372036854775808)) =
      .ok (.float (.ofU64 9223372036854775808)) :=
  (c10_number_branches ctxOk 9223372036854775808 (by decide) (by decide) rfl).1

end JsonToMd
